import Mathlib

/-!
# Verification of the TVRetrieval clip-retrieval data-loading layer

Shallow embedding of `baselines/mixture_embedding_experts/retrieval_dataset.py`:
the training dataset (`RetrievalDataset`), the evaluation dataset
(`RetrievalEvalDataset`), the batch collation function (`retrieval_collate`) and
the device mover (`prepare_batch_inputs`).

Modelling conventions:
* 2D feature arrays from the keyed feature stores (h5 files) are lists of rows
  of rationals; a store is a partial map from string keys to arrays (a missing
  key, which raises `KeyError` in Python, is `none`).
* Machine floats are modelled by exact rationals.
* Python `int()` truncation, slicing `l[:n]`, substring tests `p in s` and
  `str.replace` are modelled explicitly (`pyInt`, `pySliceTo`, `strIn`,
  `pyReplace`).
* The helper `l2_normalize_np_array` (utils/basic_utils.py, not part of the
  sources) divides each row of an array by its Euclidean norm; since the exact
  scalar arithmetic (a square root) never matters to the properties below, the
  row transformation is passed around as an explicit parameter `nu`, assumed
  where needed to preserve row length (which the real function does).
* Fallible operations (missing store key, index out of range, failed
  assertion) return `Option`.
-/

namespace TVRDataset

/-- 2D numeric array: a list of rows. -/
abbrev Arr2 := List (List ℚ)

/-- 1D numeric array (a single row / vector). -/
abbrev Vec := List ℚ

/-- A keyed feature store (an opened h5 handle): key ↦ 2D array, `none` models
a `KeyError` for a missing key. -/
abbrev Store := String → Option Arr2

/-! ## Model of the Python string operations used by the source -/

/-- `startsWith s pat` is true when `pat` is an initial segment of `s`. -/
def startsWith : List Char → List Char → Bool
  | _, [] => true
  | [], _ :: _ => false
  | a :: as, b :: bs => a == b && startsWith as bs

/-- `containsSeq s pat` is true when `pat` occurs contiguously inside `s`:
the model of Python `pat in s` on strings. -/
def containsSeq : List Char → List Char → Bool
  | [], pat => pat.isEmpty
  | a :: rest, pat => startsWith (a :: rest) pat || containsSeq rest pat

/-- Python `pat in s` for strings. -/
def strIn (pat s : String) : Bool := containsSeq s.data pat.data

/-- Auxiliary scanner for `replaceAllChars`: `skip` counts input characters
still to be consumed silently after a replacement was emitted. -/
def replaceAllAux (pat rep : List Char) : List Char → ℕ → List Char
  | [], _ => []
  | _ :: rest, Nat.succ k => replaceAllAux pat rep rest k
  | a :: rest, 0 =>
    if startsWith (a :: rest) pat then
      rep ++ replaceAllAux pat rep rest (pat.length - 1)
    else a :: replaceAllAux pat rep rest 0

/-- Replace every (leftmost, non-overlapping) occurrence of `pat` by `rep`;
model of Python `s.replace(pat, rep)` for a non-empty `pat` (the source only
uses the pattern `"feat"`). -/
def replaceAllChars (pat rep s : List Char) : List Char := replaceAllAux pat rep s 0

/-- Python `s.replace(pat, rep)`. -/
def pyReplace (s pat rep : String) : String := String.mk (replaceAllChars pat.data rep.data s.data)

/-! ## Model of the Python numeric / slicing operations used by the source -/

/-- Python `int()` on a real quantity: truncation toward zero. -/
def pyInt (q : ℚ) : ℤ := if q < 0 then -Int.floor (-q) else Int.floor q

/-- Python slice `l[:n]` with a possibly negative bound `n`. -/
def pySliceTo (l : List α) (n : ℤ) : List α :=
  if n < 0 then l.take (l.length - n.natAbs) else l.take n.toNat

/-- The data-fraction truncation performed by both dataset constructors:
`if data_ratio != 1: data = data[:int(len(data) * data_ratio)]`.
No other validation of the fraction is performed by the source. -/
def ratioSlice (frac : ℚ) (l : List α) : List α :=
  if frac = 1 then l else pySliceTo l (pyInt ((l.length : ℚ) * frac))

/-! ## Numpy operations used by the source -/

/-- Elementwise vector addition (`List.zipWith`): numpy row addition on rows of
equal length. -/
def addVec (a b : Vec) : Vec := List.zipWith (· + ·) a b

/-- `np.mean(a, axis=0)`: the elementwise mean of the rows.  On an empty array
numpy yields NaNs; the model returns `[]` there (all claims below only use the
non-empty case). -/
def npMeanAxis0 : Arr2 → Vec
  | [] => []
  | r :: rs => (rs.foldl addVec r).map (fun x => x / ((rs.length + 1 : ℕ) : ℚ))

/-- `l2_normalize_np_array` on a 2D array applies the row normalizer `nu` to
every row independently. -/
def l2NormalizeRows (nu : Vec → Vec) (a : Arr2) : Arr2 := a.map nu

/-! ## Data model -/

/-- One line of the input jsonl description file. -/
structure Record where
  desc_id : ℤ
  desc : String
  vid_name : String
  duration : ℚ
deriving DecidableEq

/-- One entry of `video_data` in the evaluation dataset:
`{"vid_name": k, "duration": v[0]}`. -/
structure VideoEntry where
  vid_name : String
  duration : ℚ
deriving DecidableEq

/-- A model-input value as produced by the item getters: either a
variable-length 2D tensor (the query feature) or a 1D vector (a pooled
feature or the 2-element placeholder). -/
inductive FeatVal where
  | q : Arr2 → FeatVal
  | v : Vec → FeatVal
deriving DecidableEq

/-- An example returned by an item getter: metadata plus the ordered
`model_inputs` dict (an association list, in insertion order). -/
structure ExampleG (μ : Type) where
  meta : μ
  model_inputs : List (String × FeatVal)
deriving DecidableEq

/-! ## Shared per-feature pipelines

`RetrievalDataset.__getitem__`, `RetrievalEvalDataset._get_item_context` and the
two `get_query_feat_by_desc_id` methods contain textually identical feature
pipelines; they are factored here and instantiated with each object's fields. -/

/-- The query-feature pipeline shared by `RetrievalDataset.get_query_feat_by_desc_id`
and `RetrievalEvalDataset.get_query_feat_by_desc_id`:
`query_feat = h5[str(desc_id)][:max_desc_len]`, optionally row-normalized. -/
def queryFeatCore (nu : Vec → Vec) (h5 : Store) (max_desc_len : ℕ)
    (normalize_tfeat : Bool) (did : ℤ) : Option Arr2 :=
  (h5 (toString did)).map (fun arr =>
    let qf := arr.take max_desc_len
    if normalize_tfeat then l2NormalizeRows nu qf else qf)

/-- The video/subtitle-feature pipeline shared by `RetrievalDataset.__getitem__`
and `RetrievalEvalDataset._get_item_context`: if the modality is enabled, mean-pool
the first `max_ctx_len` rows of the stored array and optionally normalize; if it is
disabled, emit the fixed placeholder `torch.zeros(2)`. -/
def ctxFeature (nu : Vec → Vec) (use : Bool) (normalize : Bool) (h5 : Store)
    (max_ctx_len : ℕ) (vid : String) : Option Vec :=
  if use then
    (h5 vid).map (fun arr =>
      let f := npMeanAxis0 (arr.take max_ctx_len)
      if normalize then nu f else f)
  else
    some (List.replicate 2 (0 : ℚ))

/-! ## `RetrievalDataset` (training) -/

namespace RetrievalDataset

/-- The state of a constructed `RetrievalDataset` object.  Store handles are the
already-resolved h5 handles (the path-vs-handle branch of `__init__` is interface
plumbing over the external h5 library).  The pure pass-through string fields
`dset_name` / `data_path` are omitted; they are never read by the logic. -/
structure State where
  data_ratio : ℚ
  max_desc_len : ℕ
  max_ctx_len : ℕ
  ctx_mode : String
  data : List Record
  use_video : Bool
  use_sub : Bool
  use_tef : Bool
  desc_bert_h5 : Store
  vid_feat_h5 : Store
  sub_bert_h5 : Store
  normalize_vfeat : Bool
  normalize_tfeat : Bool

/-- `RetrievalDataset.__init__`: `records` is the list loaded by
`load_jsonl(data_path)`.  The constructor performs no validation: it slices the
record list by the data fraction and derives the modality flags by substring
tests on `ctx_mode`. -/
def init (records : List Record) (max_desc_len max_ctx_len : ℕ) (ctx_mode : String)
    (desc_h5 sub_h5 vid_h5 : Store) (normalize_vfeat normalize_tfeat : Bool)
    (frac : ℚ) : State :=
  { data_ratio := frac
    max_desc_len := max_desc_len
    max_ctx_len := max_ctx_len
    ctx_mode := ctx_mode
    data := ratioSlice frac records
    use_video := strIn "video" ctx_mode
    use_sub := strIn "sub" ctx_mode
    use_tef := strIn "tef" ctx_mode
    desc_bert_h5 := desc_h5
    vid_feat_h5 := vid_h5
    sub_bert_h5 := sub_h5
    normalize_vfeat := normalize_vfeat
    normalize_tfeat := normalize_tfeat }

/-- `RetrievalDataset.__len__`. -/
def len (st : State) : ℕ := st.data.length

/-- `RetrievalDataset.get_query_feat_by_desc_id`. -/
def get_query_feat_by_desc_id (nu : Vec → Vec) (st : State) (did : ℤ) : Option Arr2 :=
  queryFeatCore nu st.desc_bert_h5 st.max_desc_len st.normalize_tfeat did

/-- Metadata of a training example. -/
structure Meta where
  desc_id : ℤ
  desc : String
  vid_name : String
  duration : ℚ
deriving DecidableEq

/-- `RetrievalDataset.__getitem__`. -/
def getitem (nu : Vec → Vec) (st : State) (index : ℕ) : Option (ExampleG Meta) :=
  match st.data.get? index with
  | none => none
  | some raw =>
    match get_query_feat_by_desc_id nu st raw.desc_id with
    | none => none
    | some qf =>
      match ctxFeature nu st.use_video st.normalize_vfeat st.vid_feat_h5
          st.max_ctx_len raw.vid_name with
      | none => none
      | some vf =>
        match ctxFeature nu st.use_sub st.normalize_tfeat st.sub_bert_h5
            st.max_ctx_len raw.vid_name with
        | none => none
        | some sf =>
          some { meta := { desc_id := raw.desc_id, desc := raw.desc,
                           vid_name := raw.vid_name, duration := raw.duration }
                 model_inputs := [("query_feat", FeatVal.q qf),
                                  ("video_feat", FeatVal.v vf),
                                  ("sub_feat", FeatVal.v sf)] }

end RetrievalDataset

/-! ## `RetrievalEvalDataset` (evaluation) -/

namespace RetrievalEvalDataset

/-- Metadata of a "query"-mode evaluation example: no duration, and the
ground-truth video name only when the opt-in flag is set. -/
structure QueryMeta where
  desc_id : ℤ
  desc : String
  vid_name : Option String
deriving DecidableEq

/-- Metadata of a "context"-mode evaluation example. -/
structure CtxMeta where
  vid_name : String
  duration : ℚ
deriving DecidableEq

/-- The state of a constructed `RetrievalEvalDataset` object. -/
structure State where
  ctx_mode : String
  load_gt_video : Bool
  data_ratio : ℚ
  normalize_vfeat : Bool
  normalize_tfeat : Bool
  data_mode : String
  max_desc_len : ℕ
  max_ctx_len : ℕ
  query_data : List Record
  desc_bert_h5 : Store
  video_data : List VideoEntry
  video2idx : List (String × ℤ)
  use_video : Bool
  use_sub : Bool
  use_tef : Bool
  vid_feat_h5 : Store
  sub_bert_h5 : Store

/-- `RetrievalEvalDataset.set_data_mode`: `assert data_mode in ["context", "query"]`,
then store the mode; a failed assertion is `none`. -/
def set_data_mode (st : State) (m : String) : Option State :=
  if m == "context" || m == "query" then some { st with data_mode := m } else none

/-- `RetrievalEvalDataset.__init__`.  `records` is the list loaded by
`load_jsonl(data_path)`; `split_items` is the item list of
`load_json(video_duration_idx_path)[eval_split_name]`, each item being
`(vid_name, (duration, idx))`.  `load_gt_video` starts `False`; the data mode is
validated through `set_data_mode`, so an invalid mode makes construction fail;
the query records are sliced by the data fraction; `video_data` and `video2idx`
are derived from the split items; the modality flags come from substring tests
on `ctx_mode`. -/
def init (records : List Record) (split_items : List (String × ℚ × ℤ))
    (max_desc_len max_ctx_len : ℕ) (ctx_mode : String) (data_mode : String)
    (desc_h5 sub_h5 vid_h5 : Store) (normalize_vfeat normalize_tfeat : Bool)
    (frac : ℚ) : Option State :=
  if data_mode == "context" || data_mode == "query" then
    some
      { ctx_mode := ctx_mode
        load_gt_video := false
        data_ratio := frac
        normalize_vfeat := normalize_vfeat
        normalize_tfeat := normalize_tfeat
        data_mode := data_mode
        max_desc_len := max_desc_len
        max_ctx_len := max_ctx_len
        query_data := ratioSlice frac records
        desc_bert_h5 := desc_h5
        video_data := split_items.map (fun it => { vid_name := it.1, duration := it.2.1 })
        video2idx := split_items.map (fun it => (it.1, it.2.2))
        use_video := strIn "video" ctx_mode
        use_sub := strIn "sub" ctx_mode
        use_tef := strIn "tef" ctx_mode
        vid_feat_h5 := vid_h5
        sub_bert_h5 := sub_h5 }
  else none

/-- `RetrievalEvalDataset.load_gt_vid_name_for_query`: asserts that the first
query record carries a video name (`IndexError` on an empty query list is
modelled as `none`; in this record model the key is always present), then sets
the opt-in flag to the given value. -/
def load_gt_vid_name_for_query (st : State) (b : Bool) : Option State :=
  match st.query_data with
  | [] => none
  | _ :: _ => some { st with load_gt_video := b }

/-- `RetrievalEvalDataset.__len__`. -/
def len (st : State) : ℕ :=
  if st.data_mode == "context" then st.video_data.length else st.query_data.length

/-- `RetrievalEvalDataset.get_query_feat_by_desc_id`. -/
def get_query_feat_by_desc_id (nu : Vec → Vec) (st : State) (did : ℤ) : Option Arr2 :=
  queryFeatCore nu st.desc_bert_h5 st.max_desc_len st.normalize_tfeat did

/-- `RetrievalEvalDataset._get_item_query`. -/
def get_item_query (nu : Vec → Vec) (st : State) (index : ℕ) :
    Option (ExampleG QueryMeta) :=
  match st.query_data.get? index with
  | none => none
  | some raw =>
    (get_query_feat_by_desc_id nu st raw.desc_id).map (fun qf =>
      { meta := { desc_id := raw.desc_id, desc := raw.desc,
                  vid_name := if st.load_gt_video then some raw.vid_name else none }
        model_inputs := [("query_feat", FeatVal.q qf)] })

/-- `RetrievalEvalDataset._get_item_context`. -/
def get_item_context (nu : Vec → Vec) (st : State) (index : ℕ) :
    Option (ExampleG CtxMeta) :=
  match st.video_data.get? index with
  | none => none
  | some raw =>
    match ctxFeature nu st.use_video st.normalize_vfeat st.vid_feat_h5
        st.max_ctx_len raw.vid_name with
    | none => none
    | some vf =>
      match ctxFeature nu st.use_sub st.normalize_tfeat st.sub_bert_h5
          st.max_ctx_len raw.vid_name with
      | none => none
      | some sf =>
        some { meta := { vid_name := raw.vid_name, duration := raw.duration }
               model_inputs := [("video_feat", FeatVal.v vf),
                                ("sub_feat", FeatVal.v sf)] }

/-- The two result shapes of `RetrievalEvalDataset.__getitem__`. -/
inductive Item where
  | ctx : ExampleG CtxMeta → Item
  | query : ExampleG QueryMeta → Item
deriving DecidableEq

/-- `RetrievalEvalDataset.__getitem__`: dispatch on the current data mode. -/
def getitem (nu : Vec → Vec) (st : State) (index : ℕ) : Option Item :=
  if st.data_mode == "context" then (get_item_context nu st index).map Item.ctx
  else (get_item_query nu st index).map Item.query

end RetrievalEvalDataset

/-! ## Batch collation (`retrieval_collate`) -/

/-- `optList` sequences a list of options: `none` as soon as one element is
`none` (the model of a Python list comprehension whose body may raise). -/
def optList : List (Option α) → Option (List α)
  | [] => some []
  | none :: _ => none
  | some a :: rest => (optList rest).map (a :: ·)

/-- Extract the 2D array of a model-input value; `pad_sequences_1d` consumes the
variable-length 2D query features. -/
def asQ : FeatVal → Option Arr2
  | FeatVal.q a => some a
  | FeatVal.v _ => none

/-- Width (second dimension) of a 2D array, read off its first row. -/
def seqDim : Arr2 → ℕ
  | [] => 0
  | r :: _ => r.length

/-- Zero-pad a 2D sequence to `L` rows of width `D`. -/
def padTo (L D : ℕ) (a : Arr2) : Arr2 :=
  a ++ List.replicate (L - a.length) (List.replicate D (0 : ℚ))

/-- Validity-mask row for an original length `n` inside a padded length `L`. -/
def maskRow (L n : ℕ) : Vec :=
  (List.range L).map (fun j => if j < n then (1 : ℚ) else 0)

/-- The longest sequence length in a batch. -/
def batchMaxLen (seqs : List Arr2) : ℕ := (seqs.map List.length).foldr Nat.max 0

/-- The row width of the first sequence of a batch. -/
def headDim : List Arr2 → ℕ
  | [] => 0
  | s :: _ => seqDim s

/-- Modelled from the spec: `pad_sequences_1d` (utils/tensor_utils.py, not among
the sources) stacks variable-length 2D sequences, zero-padding each to the
longest length in the batch, and returns the padded stack together with a
boolean validity mask marking real versus padding positions. -/
def pad_sequences_1d (seqs : List Arr2) : List Arr2 × Arr2 :=
  (seqs.map (padTo (batchMaxLen seqs) (headDim seqs)),
   seqs.map (fun s => maskRow (batchMaxLen seqs) s.length))

/-- A batched value produced by `retrieval_collate`: the `(padded, mask)` pair
returned by `pad_sequences_1d` for the query feature, or a `torch.stack` result
whose rows are the per-example tensors in batch order. -/
inductive BatchedVal where
  | padded : List Arr2 → Arr2 → BatchedVal
  | stacked : List FeatVal → BatchedVal
deriving DecidableEq

/-- The key loop of `retrieval_collate`: for each key of the first example's
`model_inputs`, pad-and-stack the query feature, stack any other key containing
`"feat"`, and silently skip the rest.  A key missing from some example's
`model_inputs` (a Python `KeyError`), or a query feature that is not a 2D
array, yields `none`. -/
def collate_feats (batch : List (ExampleG μ)) : List String → Option (List (String × BatchedVal))
  | [] => some []
  | k :: ks =>
    if k == "query_feat" then
      match optList (batch.map (fun e => (e.model_inputs.lookup k).bind asQ)) with
      | none => none
      | some qs =>
        match collate_feats batch ks with
        | none => none
        | some rest =>
          some ((k, BatchedVal.padded (pad_sequences_1d qs).1 (pad_sequences_1d qs).2) :: rest)
    else if strIn "feat" k then
      match optList (batch.map (fun e => e.model_inputs.lookup k)) with
      | none => none
      | some vs =>
        match collate_feats batch ks with
        | none => none
        | some rest => some ((k, BatchedVal.stacked vs) :: rest)
    else collate_feats batch ks

/-- `retrieval_collate`: the metadata list is passed through unmodified
(`[e["meta"] for e in batch]`), and the feature dict is built from the keys of
the first example (`batch[0]` raises `IndexError` on an empty batch, hence
`none`). -/
def retrieval_collate (batch : List (ExampleG μ)) :
    Option (List μ × List (String × BatchedVal)) :=
  match batch with
  | [] => none
  | e0 :: _ =>
    (collate_feats batch (e0.model_inputs.map Prod.fst)).map
      (fun bd => (batch.map (fun e => e.meta), bd))

/-! ## Device mover (`prepare_batch_inputs`) -/

/-- A tensor component of the prepared batch: the padded query tensor, the
query mask, or a stacked fixed-size tensor. -/
inductive MovedTensor where
  | pads : List Arr2 → MovedTensor
  | maskT : Arr2 → MovedTensor
  | stk : List FeatVal → MovedTensor
deriving DecidableEq

/-- A tensor after `.to(device, non_blocking=non_blocking)`: the destination,
the transfer hint, and the unchanged value. -/
structure MovedVal where
  device : String
  non_blocking : Bool
  val : MovedTensor
deriving DecidableEq

/-- `prepare_batch_inputs`: for the query feature split the `(tensor, mask)`
pair, move both, and register the mask under the key with `"feat"` replaced by
`"mask"`; move every other value directly.  A pair under a non-query key (a
Python `AttributeError`: tuples have no `.to`) and a bare tensor under the
query key (outside the collate contract) are modelled as `none`.  Metadata is
not an input: the function can not touch it. -/
def prepare_batch_inputs (dev : String) (nb : Bool) :
    List (String × BatchedVal) → Option (List (String × MovedVal))
  | [] => some []
  | (k, v) :: rest =>
    if k == "query_feat" then
      match v with
      | BatchedVal.padded p m =>
        (prepare_batch_inputs dev nb rest).map (fun r =>
          (k, MovedVal.mk dev nb (MovedTensor.pads p)) ::
          (pyReplace k "feat" "mask", MovedVal.mk dev nb (MovedTensor.maskT m)) :: r)
      | BatchedVal.stacked _ => none
    else
      match v with
      | BatchedVal.stacked vs =>
        (prepare_batch_inputs dev nb rest).map (fun r =>
          (k, MovedVal.mk dev nb (MovedTensor.stk vs)) :: r)
      | BatchedVal.padded _ _ => none

/-- Row-correspondence invariant for one batched value under key `k`: row `i`
of the batched tensor is derived from example `i`'s model input under `k`
(directly for a `torch.stack` result; through zero-padding, with the matching
mask row, for the `pad_sequences_1d` pair). -/
def RowAligned (batch : List (ExampleG μ)) (k : String) : BatchedVal → Prop
  | BatchedVal.stacked vs =>
      vs.length = batch.length ∧
      ∀ i e, batch.get? i = some e →
        ∃ b, e.model_inputs.lookup k = some b ∧ vs.get? i = some b
  | BatchedVal.padded P M =>
      P.length = batch.length ∧ M.length = batch.length ∧
      ∃ L D, ∀ i e, batch.get? i = some e →
        ∃ a, (e.model_inputs.lookup k).bind asQ = some a ∧
          P.get? i = some (padTo L D a) ∧ M.get? i = some (maskRow L a.length)

/-- The optionally-normalized mean-pooled context feature of an enabled
modality, as computed by `ctxFeature` on a store hit. -/
def pooledFeat (nu : Vec → Vec) (normalize : Bool) (arr : Arr2) (mcl : ℕ) : Vec :=
  if normalize then nu (npMeanAxis0 (arr.take mcl)) else npMeanAxis0 (arr.take mcl)

/-! ## Concrete data used by the witnesses -/

/-- Identity row transformation: a legitimate instantiation of the abstract
row normalizer (it preserves row length). -/
def idNu : Vec → Vec := fun r => r

/-- A constant store holding a 3×1 array under every key. -/
def qStore : Store := fun _ => some [[1], [2], [3]]

/-- A constant store holding a 1×1 array under every key. -/
def qStoreShort : Store := fun _ => some [[7]]

/-- A constant store holding a 2×2 array under every key. -/
def vStore : Store := fun _ => some [[2, 4], [4, 6]]

/-- A constant store holding a 1×2 array under every key. -/
def sStore : Store := fun _ => some [[1, 1]]

def recA : Record := { desc_id := 5, desc := "a", vid_name := "v1", duration := 10 }

def recB : Record := { desc_id := 9, desc := "b", vid_name := "v2", duration := 20 }

def recN (n : ℤ) : Record := { desc_id := n, desc := "d", vid_name := "v", duration := 0 }

def recs10 : List Record :=
  [recN 1, recN 2, recN 3, recN 4, recN 5, recN 6, recN 7, recN 8, recN 9, recN 10]

/-- A concrete evaluation dataset state in "query" mode; it is exactly the
state produced by `RetrievalEvalDataset.init` on the arguments used in the
witnesses. -/
def stC1 : RetrievalEvalDataset.State :=
  { ctx_mode := "video", load_gt_video := false, data_ratio := 1,
    normalize_vfeat := false, normalize_tfeat := false, data_mode := "query",
    max_desc_len := 2, max_ctx_len := 2,
    query_data := [recA], desc_bert_h5 := qStore,
    video_data := [{ vid_name := "v1", duration := 5 }], video2idx := [("v1", 7)],
    use_video := true, use_sub := false, use_tef := false,
    vid_feat_h5 := vStore, sub_bert_h5 := sStore }

/-- `stC1` after the ground-truth opt-in call. -/
def stC1b : RetrievalEvalDataset.State := { stC1 with load_gt_video := true }

/-- An evaluation state with two query records (and one video). -/
def stC6q : RetrievalEvalDataset.State := { stC1 with query_data := [recA, recB] }

/-- `stC6q` switched to "context" mode. -/
def stC6c : RetrievalEvalDataset.State := { stC6q with data_mode := "context" }

/-- A concrete training dataset state with video enabled and subtitles
disabled. -/
def stC9 : RetrievalDataset.State :=
  { data_ratio := 1, max_desc_len := 2, max_ctx_len := 2, ctx_mode := "video",
    data := [recA], use_video := true, use_sub := false, use_tef := false,
    desc_bert_h5 := qStore, vid_feat_h5 := vStore, sub_bert_h5 := sStore,
    normalize_vfeat := false, normalize_tfeat := false }

/-- A concrete "context"-mode evaluation state with video disabled and
subtitles enabled. -/
def stC9E : RetrievalEvalDataset.State :=
  { stC1 with
    ctx_mode := "sub"
    data_mode := "context"
    use_video := false
    use_sub := true }

/-- An evaluation state whose stored query array (1 row) is shorter than the
maximum description length (2). -/
def stEW : RetrievalEvalDataset.State := { stC1 with desc_bert_h5 := qStoreShort }

/-- The "query"-mode example `stC1` yields at index 0. -/
def exQ1 : ExampleG RetrievalEvalDataset.QueryMeta :=
  { meta := { desc_id := 5, desc := "a", vid_name := none },
    model_inputs := [("query_feat", FeatVal.q [[1], [2]])] }

/-- The "query"-mode example `stC1b` yields at index 0 (video name attached). -/
def exQ2 : ExampleG RetrievalEvalDataset.QueryMeta :=
  { meta := { desc_id := 5, desc := "a", vid_name := some "v1" },
    model_inputs := [("query_feat", FeatVal.q [[1], [2]])] }

/-- The training example `stC9` yields at index 0. -/
def exC9 : ExampleG RetrievalDataset.Meta :=
  { meta := { desc_id := 5, desc := "a", vid_name := "v1", duration := 10 },
    model_inputs := [("query_feat", FeatVal.q [[1], [2]]),
                     ("video_feat", FeatVal.v [3, 5]),
                     ("sub_feat", FeatVal.v [0, 0])] }

/-- The "context"-mode example `stC9E` yields at index 0. -/
def exC9E : ExampleG RetrievalEvalDataset.CtxMeta :=
  { meta := { vid_name := "v1", duration := 5 },
    model_inputs := [("video_feat", FeatVal.v [0, 0]),
                     ("sub_feat", FeatVal.v [1, 1])] }

/-- A batch of three examples with metadata ids `[5, 9, 3]` (the order test
case of the specification). -/
def exW1 : ExampleG ℕ :=
  { meta := 5, model_inputs := [("query_feat", FeatVal.q [[1]]),
      ("video_feat", FeatVal.v [2, 3]), ("st_ed_indices", FeatVal.v [0, 1])] }

def exW2 : ExampleG ℕ :=
  { meta := 9, model_inputs := [("query_feat", FeatVal.q [[2], [3]]),
      ("video_feat", FeatVal.v [4, 5]), ("st_ed_indices", FeatVal.v [1, 2])] }

def exW3 : ExampleG ℕ :=
  { meta := 3, model_inputs := [("query_feat", FeatVal.q [[4]]),
      ("video_feat", FeatVal.v [6, 7]), ("st_ed_indices", FeatVal.v [2, 3])] }

def batchW : List (ExampleG ℕ) := [exW1, exW2, exW3]

/-- The batched features `retrieval_collate` produces on `batchW`. -/
def bdW : List (String × BatchedVal) :=
  [("query_feat",
    BatchedVal.padded [[[1], [0]], [[2], [3]], [[4], [0]]] [[1, 0], [1, 1], [1, 0]]),
   ("video_feat",
    BatchedVal.stacked [FeatVal.v [2, 3], FeatVal.v [4, 5], FeatVal.v [6, 7]])]

/-- A two-example batch whose second example carries an extra key absent from
the first. -/
def exK1 : ExampleG ℕ :=
  { meta := 1, model_inputs := [("query_feat", FeatVal.q [[1]]),
      ("video_feat", FeatVal.v [1]), ("st_ed_indices", FeatVal.v [0, 1])] }

def exK2 : ExampleG ℕ :=
  { meta := 2, model_inputs := [("query_feat", FeatVal.q [[2]]),
      ("video_feat", FeatVal.v [2]), ("st_ed_indices", FeatVal.v [1, 2]),
      ("extra_feat", FeatVal.v [9])] }

/-- The batched features `retrieval_collate` produces on `[exK1, exK2]`. -/
def bdK : List (String × BatchedVal) :=
  [("query_feat", BatchedVal.padded [[[1]], [[2]]] [[1], [1]]),
   ("video_feat", BatchedVal.stacked [FeatVal.v [1], FeatVal.v [2]])]

/-- A collate-shaped batched-feature mapping to feed the device mover. -/
def bmW : List (String × BatchedVal) :=
  [("query_feat", BatchedVal.padded [[[1]]] [[1]]),
   ("video_feat", BatchedVal.stacked [FeatVal.v [1, 2]])]

/-- The mapping `prepare_batch_inputs` produces on `bmW` for device "cuda"
with the non-blocking hint. -/
def outW : List (String × MovedVal) :=
  [("query_feat", { device := "cuda", non_blocking := true, val := MovedTensor.pads [[[1]]] }),
   ("query_mask", { device := "cuda", non_blocking := true, val := MovedTensor.maskT [[1]] }),
   ("video_feat", { device := "cuda", non_blocking := true, val := MovedTensor.stk [FeatVal.v [1, 2]] })]

/-! ## Helper lemmas: the substring test and flag strings -/

/-- Matching a pattern that avoids `c` against `s ++ c :: t` can not reach past
`c`: it behaves exactly like matching against `s`. -/
theorem startsWith_append_cons (c : Char) :
    ∀ (pat s t : List Char), c ∉ pat →
      startsWith (s ++ c :: t) pat = startsWith s pat := by
  intro pat
  induction pat with
  | nil => intro s t _; cases s <;> simp [startsWith]
  | cons p ps ih =>
    intro s t hc
    have hcp : (c == p) = false := by
      refine beq_eq_false_iff_ne.mpr fun h => hc ?_
      exact h ▸ List.mem_cons_self p ps
    have hcps : c ∉ ps := fun h => hc (List.mem_cons_of_mem p h)
    cases s with
    | nil => simp [startsWith, hcp]
    | cons a as =>
      show (a == p && startsWith (as ++ c :: t) ps) = (a == p && startsWith as ps)
      rw [ih as t hcps]

/-- Occurrences of a non-empty pattern avoiding `c` in `x ++ c :: y` are
exactly the occurrences in `x` plus those in `y`. -/
theorem containsSeq_append_cons (c : Char) (pat : List Char)
    (hne : pat ≠ []) (hc : c ∉ pat) :
    ∀ (x y : List Char),
      containsSeq (x ++ c :: y) pat = (containsSeq x pat || containsSeq y pat) := by
  intro x
  induction x with
  | nil =>
    intro y
    obtain ⟨p, ps, rfl⟩ : ∃ p ps, pat = p :: ps := by
      cases pat with
      | nil => exact absurd rfl hne
      | cons p ps => exact ⟨p, ps, rfl⟩
    have hsw : startsWith (c :: y) (p :: ps) = false :=
      (startsWith_append_cons c (p :: ps) [] y hc).trans rfl
    calc containsSeq (([] : List Char) ++ c :: y) (p :: ps)
        = (startsWith (c :: y) (p :: ps) || containsSeq y (p :: ps)) := rfl
      _ = containsSeq y (p :: ps) := by rw [hsw, Bool.false_or]
      _ = (containsSeq ([] : List Char) (p :: ps) || containsSeq y (p :: ps)) := by
            simp [containsSeq]
  | cons a as ih =>
    intro y
    have hsw := startsWith_append_cons c pat (a :: as) y hc
    calc containsSeq ((a :: as) ++ c :: y) pat
        = (startsWith ((a :: as) ++ c :: y) pat || containsSeq (as ++ c :: y) pat) := rfl
      _ = (startsWith (a :: as) pat || (containsSeq as pat || containsSeq y pat)) := by
            rw [hsw, ih y]
      _ = ((startsWith (a :: as) pat || containsSeq as pat) || containsSeq y pat) := by
            rw [Bool.or_assoc]
      _ = (containsSeq (a :: as) pat || containsSeq y pat) := rfl

/-- Appending the flag suffix `"_tef"` to a context-mode string does not change
the outcome of a substring test for a pattern without an underscore that does
not occur in `"tef"` (such as `"video"` or `"sub"`). -/
theorem strIn_append_tef (pat cm : String) (hne : pat.data ≠ [])
    (hc : ('_' : Char) ∉ pat.data)
    (htef : containsSeq ['t', 'e', 'f'] pat.data = false) :
    strIn pat (cm ++ "_tef") = strIn pat cm := by
  unfold strIn
  rw [String.data_append, show ("_tef" : String).data = '_' :: ['t', 'e', 'f'] from rfl,
    containsSeq_append_cons '_' pat.data hne hc cm.data ['t', 'e', 'f'], htef, Bool.or_false]

/-! ## Helper lemmas: item getters -/

/-- `RetrievalDataset.__getitem__` reads only these fields of the object
state; two states agreeing on them produce identical examples. -/
theorem getitem_eq_of_fields (nu : Vec → Vec) (s1 s2 : RetrievalDataset.State)
    (hdata : s1.data = s2.data) (hmdl : s1.max_desc_len = s2.max_desc_len)
    (hnt : s1.normalize_tfeat = s2.normalize_tfeat)
    (hdh : s1.desc_bert_h5 = s2.desc_bert_h5)
    (huv : s1.use_video = s2.use_video) (hnv : s1.normalize_vfeat = s2.normalize_vfeat)
    (hvh : s1.vid_feat_h5 = s2.vid_feat_h5) (hmcl : s1.max_ctx_len = s2.max_ctx_len)
    (hus : s1.use_sub = s2.use_sub) (hsh : s1.sub_bert_h5 = s2.sub_bert_h5) (i : ℕ) :
    RetrievalDataset.getitem nu s1 i = RetrievalDataset.getitem nu s2 i := by
  unfold RetrievalDataset.getitem RetrievalDataset.get_query_feat_by_desc_id
  rw [hdata, hmdl, hnt, hdh, huv, hnv, hvh, hmcl, hus, hsh]

/-- The number of rows a `queryFeatCore` result keeps from a stored array. -/
theorem queryFeatCore_length (nu : Vec → Vec) (h5 : Store) (mdl : ℕ) (nt : Bool)
    (did : ℤ) (arr qf : Arr2)
    (h1 : h5 (toString did) = some arr)
    (h2 : queryFeatCore nu h5 mdl nt did = some qf) :
    qf.length = min arr.length mdl := by
  unfold queryFeatCore at h2
  rw [h1, Option.map_some'] at h2
  have h3 := Option.some.inj h2
  subst h3
  cases nt <;> simp [l2NormalizeRows, List.length_take, Nat.min_comm]

/-- Folding elementwise addition over rows of a common length keeps that
length. -/
theorem foldl_addVec_length :
    ∀ (rs : List Vec) (acc : Vec), (∀ r ∈ rs, r.length = acc.length) →
      (rs.foldl addVec acc).length = acc.length := by
  intro rs
  induction rs with
  | nil => intro acc _; rfl
  | cons r rs ih =>
    intro acc h
    have hr : r.length = acc.length := h r (List.mem_cons_self r rs)
    have hlen : (addVec acc r).length = acc.length := by
      simp [addVec, List.length_zipWith, hr]
    have h2 : ∀ x ∈ rs, x.length = (addVec acc r).length := by
      intro x hx; rw [hlen]; exact h x (List.mem_cons_of_mem r hx)
    calc ((r :: rs).foldl addVec acc).length
        = (rs.foldl addVec (addVec acc r)).length := rfl
      _ = (addVec acc r).length := ih (addVec acc r) h2
      _ = acc.length := hlen

/-- `np.mean(_, axis=0)` of a non-empty array whose rows all have length `D`
is a vector of length `D`. -/
theorem npMeanAxis0_length (arr : Arr2) (D : ℕ)
    (hD : ∀ r ∈ arr, r.length = D) (hne : arr ≠ []) :
    (npMeanAxis0 arr).length = D := by
  cases arr with
  | nil => exact absurd rfl hne
  | cons r rs =>
    have hr : r.length = D := hD r (List.mem_cons_self r rs)
    have h2 : ∀ x ∈ rs, x.length = r.length := by
      intro x hx; rw [hr]; exact hD x (List.mem_cons_of_mem r hx)
    simp [npMeanAxis0, List.length_map, foldl_addVec_length rs r h2, hr]

/-- Taking a positive number of rows from a non-empty list is non-empty. -/
theorem take_ne_nil (l : Arr2) (n : ℕ) (hl : l ≠ []) (hn : 0 < n) :
    l.take n ≠ [] := by
  cases l with
  | nil => exact absurd rfl hl
  | cons a as =>
    cases n with
    | zero => exact absurd hn (by simp)
    | succ m => simp [List.take]

/-- A disabled modality always yields the fixed 2-element zero placeholder,
whatever the store holds. -/
theorem ctxFeature_disabled (nu : Vec → Vec) (nrm : Bool) (h5 : Store)
    (mcl : ℕ) (vid : String) :
    ctxFeature nu false nrm h5 mcl vid = some (List.replicate 2 (0 : ℚ)) := rfl

/-- An enabled modality on a store hit yields the optionally-normalized pooled
feature. -/
theorem ctxFeature_enabled (nu : Vec → Vec) (nrm : Bool) (h5 : Store)
    (mcl : ℕ) (vid : String) (arr : Arr2) (h : h5 vid = some arr) :
    ctxFeature nu true nrm h5 mcl vid = some (pooledFeat nu nrm arr mcl) := by
  unfold ctxFeature pooledFeat
  rw [if_pos rfl, h, Option.map_some']

/-- Length of the pooled feature of an enabled modality: the feature dimension
of the stored array, for any row normalizer that preserves row length. -/
theorem pooledFeat_length (nu : Vec → Vec) (nrm : Bool) (arr : Arr2) (mcl D : ℕ)
    (hD : ∀ r ∈ arr, r.length = D) (hne : arr ≠ []) (hmcl : 0 < mcl)
    (hnu : ∀ r, (nu r).length = r.length) :
    (pooledFeat nu nrm arr mcl).length = D := by
  have hDt : ∀ r ∈ arr.take mcl, r.length = D := fun r hr =>
    hD r (List.take_subset mcl arr hr)
  have hmean : (npMeanAxis0 (arr.take mcl)).length = D :=
    npMeanAxis0_length (arr.take mcl) D hDt (take_ne_nil arr mcl hne hmcl)
  unfold pooledFeat
  cases nrm with
  | false => simpa using hmean
  | true => simpa [hnu] using hmean

/-- Decomposition of a successful `RetrievalDataset.__getitem__`: the example's
`model_inputs` dict is exactly the three feature entries produced by the query
and context pipelines on the indexed record. -/
theorem getitem_decomp (nu : Vec → Vec) (st : RetrievalDataset.State) (i : ℕ)
    (raw : Record) (ex : ExampleG RetrievalDataset.Meta)
    (h1 : st.data.get? i = some raw)
    (h2 : RetrievalDataset.getitem nu st i = some ex) :
    ∃ qf vf sf,
      RetrievalDataset.get_query_feat_by_desc_id nu st raw.desc_id = some qf ∧
      ctxFeature nu st.use_video st.normalize_vfeat st.vid_feat_h5
          st.max_ctx_len raw.vid_name = some vf ∧
      ctxFeature nu st.use_sub st.normalize_tfeat st.sub_bert_h5
          st.max_ctx_len raw.vid_name = some sf ∧
      ex.meta = { desc_id := raw.desc_id, desc := raw.desc,
                  vid_name := raw.vid_name, duration := raw.duration } ∧
      ex.model_inputs = [("query_feat", FeatVal.q qf),
                         ("video_feat", FeatVal.v vf),
                         ("sub_feat", FeatVal.v sf)] := by
  unfold RetrievalDataset.getitem at h2
  rw [h1] at h2
  dsimp only at h2
  cases hq : RetrievalDataset.get_query_feat_by_desc_id nu st raw.desc_id with
  | none => rw [hq] at h2; exact absurd h2 (by simp)
  | some qf =>
    rw [hq] at h2
    dsimp only at h2
    cases hv : ctxFeature nu st.use_video st.normalize_vfeat st.vid_feat_h5
        st.max_ctx_len raw.vid_name with
    | none => rw [hv] at h2; exact absurd h2 (by simp)
    | some vf =>
      rw [hv] at h2
      dsimp only at h2
      cases hs : ctxFeature nu st.use_sub st.normalize_tfeat st.sub_bert_h5
          st.max_ctx_len raw.vid_name with
      | none => rw [hs] at h2; exact absurd h2 (by simp)
      | some sf =>
        rw [hs] at h2
        dsimp only at h2
        have h3 := Option.some.inj h2
        exact ⟨qf, vf, sf, rfl, rfl, rfl, by rw [← h3], by rw [← h3]⟩

/-- Decomposition of a successful `RetrievalEvalDataset._get_item_context`:
the example carries exactly the two feature entries produced by the context
pipelines on the indexed video entry. -/
theorem get_item_context_decomp (nu : Vec → Vec) (st : RetrievalEvalDataset.State)
    (i : ℕ) (raw : VideoEntry) (ex : ExampleG RetrievalEvalDataset.CtxMeta)
    (h1 : st.video_data.get? i = some raw)
    (h2 : RetrievalEvalDataset.get_item_context nu st i = some ex) :
    ∃ vf sf,
      ctxFeature nu st.use_video st.normalize_vfeat st.vid_feat_h5
          st.max_ctx_len raw.vid_name = some vf ∧
      ctxFeature nu st.use_sub st.normalize_tfeat st.sub_bert_h5
          st.max_ctx_len raw.vid_name = some sf ∧
      ex.meta = { vid_name := raw.vid_name, duration := raw.duration } ∧
      ex.model_inputs = [("video_feat", FeatVal.v vf),
                         ("sub_feat", FeatVal.v sf)] := by
  unfold RetrievalEvalDataset.get_item_context at h2
  rw [h1] at h2
  dsimp only at h2
  cases hv : ctxFeature nu st.use_video st.normalize_vfeat st.vid_feat_h5
      st.max_ctx_len raw.vid_name with
  | none => rw [hv] at h2; exact absurd h2 (by simp)
  | some vf =>
    rw [hv] at h2
    dsimp only at h2
    cases hs : ctxFeature nu st.use_sub st.normalize_tfeat st.sub_bert_h5
        st.max_ctx_len raw.vid_name with
    | none => rw [hs] at h2; exact absurd h2 (by simp)
    | some sf =>
      rw [hs] at h2
      dsimp only at h2
      have h3 := Option.some.inj h2
      exact ⟨vf, sf, rfl, rfl, by rw [← h3], by rw [← h3]⟩

/-! ## Helper lemmas: collation -/

/-- Index-wise description of a successful `optList` over a mapped list. -/
theorem optList_map_spec (f : α → Option β) :
    ∀ (l : List α) (r : List β), optList (l.map f) = some r →
      r.length = l.length ∧
      ∀ i a, l.get? i = some a → ∃ b, f a = some b ∧ r.get? i = some b := by
  intro l
  induction l with
  | nil =>
    intro r h
    have h2 : ([] : List β) = r := Option.some.inj (by simpa [optList] using h)
    subst h2
    exact ⟨rfl, fun i a ha => by simp at ha⟩
  | cons a as ih =>
    intro r h
    simp only [List.map_cons] at h
    cases hfa : f a with
    | none => rw [hfa] at h; exact absurd h (by simp [optList])
    | some b =>
      rw [hfa] at h
      simp only [optList] at h
      obtain ⟨r2, hr2, hb⟩ := Option.map_eq_some'.mp h
      obtain ⟨hlen, hidx⟩ := ih r2 hr2
      subst hb
      refine ⟨by simp [hlen], ?_⟩
      intro i x hx
      cases i with
      | zero =>
        have hax : a = x := Option.some.inj hx
        subst hax
        exact ⟨b, hfa, rfl⟩
      | succ n =>
        have hx2 : as.get? n = some x := hx
        obtain ⟨b2, hb2, hr⟩ := hidx n x hx2
        exact ⟨b2, hb2, hr⟩

/-- Every entry produced by the key loop of `retrieval_collate` satisfies the
row-correspondence invariant. -/
theorem collate_feats_spec (batch : List (ExampleG μ)) :
    ∀ (ks : List String) (bd : List (String × BatchedVal)),
      collate_feats batch ks = some bd →
      ∀ k bv, (k, bv) ∈ bd → RowAligned batch k bv := by
  intro ks
  induction ks with
  | nil =>
    intro bd h k bv hm
    have h2 : ([] : List (String × BatchedVal)) = bd :=
      Option.some.inj (by simpa [collate_feats] using h)
    subst h2
    simp at hm
  | cons k0 ks ih =>
    intro bd h k bv hm
    simp only [collate_feats] at h
    by_cases hq : (k0 == "query_feat") = true
    · rw [if_pos hq] at h
      cases hqs : optList (batch.map fun e => (e.model_inputs.lookup k0).bind asQ) with
      | none => rw [hqs] at h; exact absurd h (by simp)
      | some qs =>
        rw [hqs] at h
        cases hr : collate_feats batch ks with
        | none => rw [hr] at h; exact absurd h (by simp)
        | some rest =>
          rw [hr] at h
          have hbd := Option.some.inj h
          subst hbd
          rcases List.mem_cons.mp hm with he | hm2
          · rw [Prod.mk.injEq] at he
            obtain ⟨hk, hbv⟩ := he
            subst hk
            subst hbv
            obtain ⟨hlen, hidx⟩ := optList_map_spec _ batch qs hqs
            simp only [RowAligned, pad_sequences_1d]
            refine ⟨by simp [hlen], by simp [hlen], batchMaxLen qs, headDim qs, ?_⟩
            intro i e he2
            obtain ⟨b, hb, hqsi⟩ := hidx i e he2
            rw [List.get?_eq_getElem?] at hqsi
            refine ⟨b, hb, ?_, ?_⟩
            · rw [List.get?_eq_getElem?]
              simp [List.getElem?_map, hqsi]
            · rw [List.get?_eq_getElem?]
              simp [List.getElem?_map, hqsi]
          · exact ih rest hr k bv hm2
    · rw [if_neg hq] at h
      by_cases hf : strIn "feat" k0 = true
      · rw [if_pos hf] at h
        cases hvs : optList (batch.map fun e => e.model_inputs.lookup k0) with
        | none => rw [hvs] at h; exact absurd h (by simp)
        | some vs =>
          rw [hvs] at h
          cases hr : collate_feats batch ks with
          | none => rw [hr] at h; exact absurd h (by simp)
          | some rest =>
            rw [hr] at h
            have hbd := Option.some.inj h
            subst hbd
            rcases List.mem_cons.mp hm with he | hm2
            · rw [Prod.mk.injEq] at he
              obtain ⟨hk, hbv⟩ := he
              subst hk
              subst hbv
              obtain ⟨hlen, hidx⟩ := optList_map_spec _ batch vs hvs
              exact ⟨hlen, hidx⟩
            · exact ih rest hr k bv hm2
      · rw [if_neg hf] at h
        exact ih bd h k bv hm

/-- The key loop keeps, in order, exactly the keys containing `"feat"`. -/
theorem collate_feats_keys (batch : List (ExampleG μ)) :
    ∀ (ks : List String) (bd : List (String × BatchedVal)),
      collate_feats batch ks = some bd →
      bd.map Prod.fst = ks.filter (fun k => strIn "feat" k) := by
  intro ks
  induction ks with
  | nil =>
    intro bd h
    have h2 : ([] : List (String × BatchedVal)) = bd :=
      Option.some.inj (by simpa [collate_feats] using h)
    subst h2
    rfl
  | cons k0 ks ih =>
    intro bd h
    simp only [collate_feats] at h
    by_cases hq : (k0 == "query_feat") = true
    · rw [if_pos hq] at h
      have hk0 : k0 = "query_feat" := eq_of_beq hq
      subst hk0
      cases hqs : optList (batch.map fun e => (e.model_inputs.lookup "query_feat").bind asQ) with
      | none => rw [hqs] at h; exact absurd h (by simp)
      | some qs =>
        rw [hqs] at h
        cases hr : collate_feats batch ks with
        | none => rw [hr] at h; exact absurd h (by simp)
        | some rest =>
          rw [hr] at h
          have hbd := Option.some.inj h
          subst hbd
          have hfq : strIn "feat" "query_feat" = true := by decide
          simp [List.filter, hfq, ih rest hr]
    · rw [if_neg hq] at h
      by_cases hf : strIn "feat" k0 = true
      · rw [if_pos hf] at h
        cases hvs : optList (batch.map fun e => e.model_inputs.lookup k0) with
        | none => rw [hvs] at h; exact absurd h (by simp)
        | some vs =>
          rw [hvs] at h
          cases hr : collate_feats batch ks with
          | none => rw [hr] at h; exact absurd h (by simp)
          | some rest =>
            rw [hr] at h
            have hbd := Option.some.inj h
            subst hbd
            simp [List.filter, hf, ih rest hr]
      · rw [if_neg hf] at h
        have hf2 : strIn "feat" k0 = false := by
          cases h2 : strIn "feat" k0 with
          | false => rfl
          | true => exact absurd h2 hf
        simp [List.filter, hf2, ih bd h]

/-! ## Claim theorems -/

/-- Successful "query"-mode dispatch of the evaluation getter: the example is
built by `_get_item_query` from the indexed query record, with the video name
gated by the opt-in flag. -/
theorem getitem_query_meta (nu : Vec → Vec) (st : RetrievalEvalDataset.State)
    (i : ℕ) (ex : ExampleG RetrievalEvalDataset.QueryMeta)
    (hm : st.data_mode = "query")
    (hget : RetrievalEvalDataset.getitem nu st i = some (RetrievalEvalDataset.Item.query ex)) :
    ∃ raw, st.query_data.get? i = some raw ∧
      ex.meta = { desc_id := raw.desc_id, desc := raw.desc,
                  vid_name := if st.load_gt_video then some raw.vid_name else none } := by
  unfold RetrievalEvalDataset.getitem at hget
  rw [hm, if_neg (by decide : ¬ ((("query" : String) == "context") = true))] at hget
  obtain ⟨exq, hexq, hinj⟩ := Option.map_eq_some'.mp hget
  injection hinj with hh
  subst hh
  unfold RetrievalEvalDataset.get_item_query at hexq
  cases hr : st.query_data.get? i with
  | none => rw [hr] at hexq; exact absurd hexq (by simp)
  | some raw =>
    rw [hr] at hexq
    dsimp only at hexq
    obtain ⟨qf, _, heg⟩ := Option.map_eq_some'.mp hexq
    exact ⟨raw, rfl, by rw [← heg]⟩

/-- C1: in "query" evaluation mode, for every index, the metadata returned by
`RetrievalEvalDataset.__getitem__` carries no video name whenever the opt-in
flag is off — which is its state right after construction — and after the
opt-in call `load_gt_vid_name_for_query true`, the indexed record's video name
is attached. -/
theorem C1_gt_leakage_guard (nu : Vec → Vec) (st : RetrievalEvalDataset.State)
    (i : ℕ) (hmode : st.data_mode = "query") :
    (∀ ex, st.load_gt_video = false →
      RetrievalEvalDataset.getitem nu st i = some (RetrievalEvalDataset.Item.query ex) →
      ex.meta.vid_name = none) ∧
    (∀ st2 raw ex,
      RetrievalEvalDataset.load_gt_vid_name_for_query st true = some st2 →
      st2.query_data.get? i = some raw →
      RetrievalEvalDataset.getitem nu st2 i = some (RetrievalEvalDataset.Item.query ex) →
      ex.meta.vid_name = some raw.vid_name) ∧
    (∀ records split_items mdl mcl cm dh sh vh nv nt frac s,
      RetrievalEvalDataset.init records split_items mdl mcl cm "query" dh sh vh nv nt frac
        = some s →
      s.load_gt_video = false) := by
  refine ⟨?_, ?_, ?_⟩
  · intro ex hgt hget
    obtain ⟨raw, _, hmeta⟩ := getitem_query_meta nu st i ex hmode hget
    rw [hmeta]
    simp [hgt]
  · intro st2 raw ex hload hraw hget
    have hst2 : st2 = { st with load_gt_video := true } := by
      unfold RetrievalEvalDataset.load_gt_vid_name_for_query at hload
      cases hqd : st.query_data with
      | nil => rw [hqd] at hload; exact absurd hload (by simp)
      | cons r rs =>
        rw [hqd] at hload
        dsimp only at hload
        exact (Option.some.inj hload).symm
    subst hst2
    obtain ⟨raw2, hraw2, hmeta⟩ :=
      getitem_query_meta nu { st with load_gt_video := true } i ex hmode hget
    have hrr : raw2 = raw := Option.some.inj (hraw2.symm.trans hraw)
    subst hrr
    rw [hmeta]
    simp
  · intro records split_items mdl mcl cm dh sh vh nv nt frac s hinit
    unfold RetrievalEvalDataset.init at hinit
    rw [if_pos (by decide)] at hinit
    have h2 := Option.some.inj hinit
    rw [← h2]

/-- Witness for C1 on concrete data: metadata video name is `none` before the
opt-in and the record's name afterwards; the constructor starts with the flag
off. -/
theorem C1_witness :
    exQ1.meta.vid_name = none ∧
    exQ2.meta.vid_name = some recA.vid_name ∧
    stC1.load_gt_video = false := by
  have h := C1_gt_leakage_guard idNu stC1 0 rfl
  refine ⟨h.1 exQ1 rfl (by decide), ?_, ?_⟩
  · exact h.2.1 stC1b recA exQ2 rfl rfl (by decide)
  · exact h.2.2 [recA] [("v1", (5, 7))] 2 2 "video" qStore sStore vStore false false 1 stC1 rfl

/-- C2 counterexample: a data ratio of 0 lies outside `(0, 1]`, yet neither
constructor fails — there is no ratio validation and no `ConfigurationError`
path in the source.  Training construction yields a dataset with an empty
record list; evaluation construction (with a valid data mode) succeeds
likewise. -/
theorem C2_counterexample :
    (RetrievalDataset.init [recA, recB] 2 2 "video" qStore sStore vStore false false 0).data
      = [] ∧
    (RetrievalEvalDataset.init [recA, recB] [("v1", (5, 7))] 2 2 "video" "query" qStore
        sStore vStore false false 0).map (fun s => s.query_data) = some [] := by
  constructor
  · norm_num [RetrievalDataset.init, ratioSlice, pyInt, pySliceTo]
  · norm_num [RetrievalEvalDataset.init, ratioSlice, pyInt, pySliceTo]

/-- C2 amended: construction never validates the data ratio.  For every ratio
(inside or outside `(0, 1]`) the training constructor succeeds, and the
evaluation constructor succeeds whenever its data mode is valid; in both the
record list simply becomes its `int(len * ratio)`-prefix slice (the whole list
at ratio 1). -/
theorem C2_no_ratio_validation (records : List Record)
    (split_items : List (String × ℚ × ℤ)) (mdl mcl : ℕ) (cm dm : String)
    (dh sh vh : Store) (nv nt : Bool) (frac : ℚ)
    (hdm : dm = "context" ∨ dm = "query") :
    (RetrievalDataset.init records mdl mcl cm dh sh vh nv nt frac).data
      = ratioSlice frac records ∧
    ∃ s, RetrievalEvalDataset.init records split_items mdl mcl cm dm dh sh vh nv nt frac
        = some s ∧ s.query_data = ratioSlice frac records := by
  refine ⟨rfl, ?_⟩
  have hb : (dm == "context" || dm == "query") = true := by
    rcases hdm with h | h <;> subst h <;> decide
  unfold RetrievalEvalDataset.init
  rw [if_pos hb]
  exact ⟨_, rfl, rfl⟩

/-- Witness for the amended C2 at the out-of-range ratio 3/2: both
constructions succeed. -/
theorem C2_amended_witness :
    (RetrievalDataset.init [recA, recB] 2 2 "video" qStore sStore vStore false false
        (3 / 2)).data = ratioSlice (3 / 2) [recA, recB] ∧
    ∃ s, RetrievalEvalDataset.init [recA, recB] [("v1", (5, 7))] 2 2 "video" "query" qStore
        sStore vStore false false (3 / 2) = some s ∧
      s.query_data = ratioSlice (3 / 2) [recA, recB] :=
  C2_no_ratio_validation [recA, recB] [("v1", (5, 7))] 2 2 "video" "query" qStore sStore
    vStore false false (3 / 2) (Or.inr rfl)

/-- C3: the flag `"tef"` is inert in this layer — for every configuration and
index, `RetrievalDataset.__getitem__` returns the identical example (metadata
and all feature tensors) whether or not `"tef"` is appended to the context-mode
string. -/
theorem C3_tef_flag_inert (nu : Vec → Vec) (records : List Record) (mdl mcl : ℕ)
    (cm : String) (dh sh vh : Store) (nv nt : Bool) (frac : ℚ) (i : ℕ) :
    RetrievalDataset.getitem nu
        (RetrievalDataset.init records mdl mcl (cm ++ "_tef") dh sh vh nv nt frac) i
      = RetrievalDataset.getitem nu
        (RetrievalDataset.init records mdl mcl cm dh sh vh nv nt frac) i := by
  refine getitem_eq_of_fields nu
    (RetrievalDataset.init records mdl mcl (cm ++ "_tef") dh sh vh nv nt frac)
    (RetrievalDataset.init records mdl mcl cm dh sh vh nv nt frac)
    rfl rfl rfl rfl ?_ rfl rfl rfl ?_ rfl i
  · exact strIn_append_tef "video" cm (by decide) (by decide) (by decide)
  · exact strIn_append_tef "sub" cm (by decide) (by decide) (by decide)

/-- C4: for every stored query-feature array, a successful
`get_query_feat_by_desc_id` (training and evaluation variants) returns an
array whose row count is the minimum of the stored length and the configured
maximum description length: never above the maximum, and equal to the stored
length when the stored sequence is shorter. -/
theorem C4_query_truncation (nu : Vec → Vec) (stT : RetrievalDataset.State)
    (stE : RetrievalEvalDataset.State) (did : ℤ) (arrT arrE qfT qfE : Arr2)
    (h1 : stT.desc_bert_h5 (toString did) = some arrT)
    (h2 : RetrievalDataset.get_query_feat_by_desc_id nu stT did = some qfT)
    (h3 : stE.desc_bert_h5 (toString did) = some arrE)
    (h4 : RetrievalEvalDataset.get_query_feat_by_desc_id nu stE did = some qfE) :
    (qfT.length = min arrT.length stT.max_desc_len ∧
      qfT.length ≤ stT.max_desc_len ∧
      (arrT.length ≤ stT.max_desc_len → qfT.length = arrT.length)) ∧
    (qfE.length = min arrE.length stE.max_desc_len ∧
      qfE.length ≤ stE.max_desc_len ∧
      (arrE.length ≤ stE.max_desc_len → qfE.length = arrE.length)) := by
  have hT := queryFeatCore_length nu stT.desc_bert_h5 stT.max_desc_len
    stT.normalize_tfeat did arrT qfT h1 h2
  have hE := queryFeatCore_length nu stE.desc_bert_h5 stE.max_desc_len
    stE.normalize_tfeat did arrE qfE h3 h4
  refine ⟨⟨hT, ?_, ?_⟩, ⟨hE, ?_, ?_⟩⟩
  · rw [hT]; exact Nat.min_le_right _ _
  · intro hle; rw [hT]; exact Nat.min_eq_left hle
  · rw [hE]; exact Nat.min_le_right _ _
  · intro hle; rw [hE]; exact Nat.min_eq_left hle

/-- Witness for C4: a 3-row stored array truncated to the maximum 2, and a
1-row stored array kept whole under the same maximum. -/
theorem C4_witness :
    ((([[1], [2]] : Arr2).length = min ([[1], [2], [3]] : Arr2).length stC9.max_desc_len ∧
      ([[1], [2]] : Arr2).length ≤ stC9.max_desc_len ∧
      (([[1], [2], [3]] : Arr2).length ≤ stC9.max_desc_len →
        ([[1], [2]] : Arr2).length = ([[1], [2], [3]] : Arr2).length)) ∧
     (([[7]] : Arr2).length = min ([[7]] : Arr2).length stEW.max_desc_len ∧
      ([[7]] : Arr2).length ≤ stEW.max_desc_len ∧
      (([[7]] : Arr2).length ≤ stEW.max_desc_len →
        ([[7]] : Arr2).length = ([[7]] : Arr2).length))) :=
  C4_query_truncation idNu stC9 stEW 5 [[1], [2], [3]] [[7]] [[1], [2]] [[7]]
    rfl (by decide) rfl (by decide)

/-- C5: for every record list and ratio `r` in `(0, 1)` the constructed
training dataset keeps exactly `⌊len * r⌋` records, namely the head slice of
the original list in original order; at ratio 1 the list is kept whole. -/
theorem C5_ratio_head_slice (records : List Record) (r : ℚ) (mdl mcl : ℕ)
    (cm : String) (dh sh vh : Store) (nv nt : Bool)
    (h0 : 0 < r) (h1 : r < 1) :
    (RetrievalDataset.init records mdl mcl cm dh sh vh nv nt r).data
      = records.take (Int.floor ((records.length : ℚ) * r)).toNat ∧
    (RetrievalDataset.init records mdl mcl cm dh sh vh nv nt r).data.length
      = (Int.floor ((records.length : ℚ) * r)).toNat ∧
    (RetrievalDataset.init records mdl mcl cm dh sh vh nv nt 1).data = records := by
  have hne : r ≠ 1 := ne_of_lt h1
  have hnn : (0 : ℚ) ≤ (records.length : ℚ) * r := mul_nonneg (Nat.cast_nonneg _) h0.le
  have hfl : (0 : ℤ) ≤ Int.floor ((records.length : ℚ) * r) := Int.floor_nonneg.mpr hnn
  have hle : Int.floor ((records.length : ℚ) * r) ≤ (records.length : ℤ) := by
    have hmul : (records.length : ℚ) * r ≤ (records.length : ℚ) := by
      have h2 := mul_le_mul_of_nonneg_left h1.le (Nat.cast_nonneg (α := ℚ) records.length)
      simpa using h2
    exact (Int.floor_le_floor hmul).trans (le_of_eq (Int.floor_natCast _))
  have hp : pyInt ((records.length : ℚ) * r) = Int.floor ((records.length : ℚ) * r) := by
    unfold pyInt
    rw [if_neg (not_lt.mpr hnn)]
  have hdata : (RetrievalDataset.init records mdl mcl cm dh sh vh nv nt r).data
      = records.take (Int.floor ((records.length : ℚ) * r)).toNat := by
    show ratioSlice r records = _
    unfold ratioSlice
    rw [if_neg hne, hp]
    unfold pySliceTo
    rw [if_neg (not_lt.mpr hfl)]
  refine ⟨hdata, ?_, ?_⟩
  · rw [hdata, List.length_take]
    refine Nat.min_eq_left ?_
    have h2 := Int.toNat_le_toNat hle
    simpa [Int.toNat_natCast] using h2
  · show ratioSlice 1 records = records
    simp [ratioSlice]

/-- Witness for C5: ratio 1/2 on a 10-record list keeps exactly the first
5 records, in order. -/
theorem C5_witness :
    (RetrievalDataset.init recs10 2 2 "video" qStore sStore vStore false false
        (1 / 2)).data = [recN 1, recN 2, recN 3, recN 4, recN 5] := by
  have h := (C5_ratio_head_slice recs10 (1 / 2) 2 2 "video" qStore sStore vStore false false
    (by norm_num) (by norm_num)).1
  rw [h]
  norm_num [recs10]
  rfl

/-- C6: the evaluation container's reported length is the number of videos in
the target split when the current data mode is `"context"` and the number of
query records otherwise; its item getter dispatches to the context or query
builder according to the current mode; and after `set_data_mode "context"` the
length is the video count, independent of the number of queries. -/
theorem C6_mode_dispatch (nu : Vec → Vec) (st : RetrievalEvalDataset.State) :
    (st.data_mode = "context" →
      RetrievalEvalDataset.len st = st.video_data.length ∧
      ∀ i, RetrievalEvalDataset.getitem nu st i
        = (RetrievalEvalDataset.get_item_context nu st i).map RetrievalEvalDataset.Item.ctx) ∧
    (st.data_mode ≠ "context" →
      RetrievalEvalDataset.len st = st.query_data.length ∧
      ∀ i, RetrievalEvalDataset.getitem nu st i
        = (RetrievalEvalDataset.get_item_query nu st i).map RetrievalEvalDataset.Item.query) ∧
    (∀ st2, RetrievalEvalDataset.set_data_mode st "context" = some st2 →
      RetrievalEvalDataset.len st2 = st.video_data.length) := by
  refine ⟨?_, ?_, ?_⟩
  · intro h
    have hb : (st.data_mode == "context") = true := by rw [h]; decide
    exact ⟨by unfold RetrievalEvalDataset.len; rw [if_pos hb],
      fun i => by unfold RetrievalEvalDataset.getitem; rw [if_pos hb]⟩
  · intro h
    have hb : (st.data_mode == "context") = false := beq_eq_false_iff_ne.mpr h
    refine ⟨?_, fun i => ?_⟩
    · simp [RetrievalEvalDataset.len, hb]
    · simp [RetrievalEvalDataset.getitem, hb]
  · intro st2 h2
    unfold RetrievalEvalDataset.set_data_mode at h2
    rw [if_pos (by decide)] at h2
    have h3 := Option.some.inj h2
    rw [← h3]
    simp [RetrievalEvalDataset.len]

/-- Witness for C6: a state with two queries and one video reports length 2 in
"query" mode and length 1 after switching to "context" mode; dispatch follows
the mode. -/
theorem C6_witness :
    RetrievalEvalDataset.len stC6q = 2 ∧
    RetrievalEvalDataset.len stC6c = 1 ∧
    (∀ st2, RetrievalEvalDataset.set_data_mode stC6q "context" = some st2 →
      RetrievalEvalDataset.len st2 = 1) ∧
    RetrievalEvalDataset.getitem idNu stC6c 0
      = (RetrievalEvalDataset.get_item_context idNu stC6c 0).map RetrievalEvalDataset.Item.ctx ∧
    RetrievalEvalDataset.getitem idNu stC6q 0
      = (RetrievalEvalDataset.get_item_query idNu stC6q 0).map RetrievalEvalDataset.Item.query := by
  have hq := C6_mode_dispatch idNu stC6q
  have hc := C6_mode_dispatch idNu stC6c
  exact ⟨(hq.2.1 (by decide)).1, (hc.1 rfl).1, fun st2 h2 => hq.2.2 st2 h2,
    (hc.1 rfl).2 0, (hq.2.1 (by decide)).2 0⟩

/-- C7: `retrieval_collate` passes the metadata list through unmodified, in
input order, and every batched feature value is row-aligned with the input
examples: tensor row `i` is derived from example `i` (hence corresponds to
`metadata[i]`). -/
theorem C7_collate_order {μ : Type} (batch : List (ExampleG μ)) (metas : List μ)
    (bd : List (String × BatchedVal))
    (h : retrieval_collate batch = some (metas, bd)) :
    metas = batch.map (fun e => e.meta) ∧
    ∀ k bv, (k, bv) ∈ bd → RowAligned batch k bv := by
  cases batch with
  | nil => exact absurd h (by simp [retrieval_collate])
  | cons e0 rest =>
    unfold retrieval_collate at h
    dsimp only at h
    cases hcf : collate_feats (e0 :: rest) (e0.model_inputs.map Prod.fst) with
    | none => rw [hcf] at h; exact absurd h (by simp)
    | some bd2 =>
      rw [hcf, Option.map_some'] at h
      have h2 := Option.some.inj h
      have hm : (e0 :: rest).map (fun e => e.meta) = metas := congrArg Prod.fst h2
      have hb : bd2 = bd := congrArg Prod.snd h2
      subst hb
      exact ⟨hm.symm, fun k bv hmem => collate_feats_spec (e0 :: rest) _ bd2 hcf k bv hmem⟩

/-- Witness for C7 on a 3-example batch with metadata ids `[5, 9, 3]`: the
metadata comes back in exactly that order and the stacked video rows are
aligned with the examples. -/
theorem C7_witness :
    [5, 9, 3] = batchW.map (fun e => e.meta) ∧
    RowAligned batchW "video_feat"
      (BatchedVal.stacked [FeatVal.v [2, 3], FeatVal.v [4, 5], FeatVal.v [6, 7]]) := by
  have h := C7_collate_order batchW [5, 9, 3] bdW (by decide)
  exact ⟨h.1, h.2 "video_feat" _ (by decide)⟩

/-- C8: a successful `prepare_batch_inputs` maps the query-feature key to the
moved padded tensor, registers the moved mask under the key with `"feat"`
replaced by `"mask"` (for the query key: `"query_mask"`), and maps every other
key to its stacked tensor moved directly.  Metadata is not an argument, so the
function can not mutate it. -/
theorem C8_prepare_moves (dev : String) (nb : Bool)
    (bm : List (String × BatchedVal)) :
    ∀ out, prepare_batch_inputs dev nb bm = some out →
      (∀ k P M, (k, BatchedVal.padded P M) ∈ bm →
        ((k, MovedVal.mk dev nb (MovedTensor.pads P)) ∈ out ∧
          (pyReplace k "feat" "mask", MovedVal.mk dev nb (MovedTensor.maskT M)) ∈ out)) ∧
      (∀ k vs, (k, BatchedVal.stacked vs) ∈ bm →
        (k, MovedVal.mk dev nb (MovedTensor.stk vs)) ∈ out) ∧
      pyReplace "query_feat" "feat" "mask" = "query_mask" := by
  induction bm with
  | nil =>
    intro out h
    exact ⟨fun k P M hm => absurd hm (by simp), fun k vs hm => absurd hm (by simp), by decide⟩
  | cons kv rest ih =>
    intro out h
    obtain ⟨k0, v0⟩ := kv
    simp only [prepare_batch_inputs] at h
    by_cases hk : (k0 == "query_feat") = true
    · rw [if_pos hk] at h
      cases v0 with
      | stacked vs => exact absurd h (by simp)
      | padded p m =>
        obtain ⟨r, hr, hout⟩ := Option.map_eq_some'.mp h
        obtain ⟨hp, hs, hrep⟩ := ih r hr
        subst hout
        refine ⟨?_, ?_, hrep⟩
        · intro k P M hm
          rcases List.mem_cons.mp hm with he | hm2
          · rw [Prod.mk.injEq] at he
            obtain ⟨hk2, hv2⟩ := he
            subst hk2
            injection hv2 with hP hM
            subst hP
            subst hM
            exact ⟨List.mem_cons_self _ _,
              List.mem_cons_of_mem _ (List.mem_cons_self _ _)⟩
          · obtain ⟨ha, hb2⟩ := hp k P M hm2
            exact ⟨List.mem_cons_of_mem _ (List.mem_cons_of_mem _ ha),
              List.mem_cons_of_mem _ (List.mem_cons_of_mem _ hb2)⟩
        · intro k vs hm
          rcases List.mem_cons.mp hm with he | hm2
          · rw [Prod.mk.injEq] at he
            exact absurd he.2 (by simp)
          · exact List.mem_cons_of_mem _ (List.mem_cons_of_mem _ (hs k vs hm2))
    · rw [if_neg hk] at h
      cases v0 with
      | padded p m => exact absurd h (by simp)
      | stacked vs0 =>
        obtain ⟨r, hr, hout⟩ := Option.map_eq_some'.mp h
        obtain ⟨hp, hs, hrep⟩ := ih r hr
        subst hout
        refine ⟨?_, ?_, hrep⟩
        · intro k P M hm
          rcases List.mem_cons.mp hm with he | hm2
          · rw [Prod.mk.injEq] at he
            exact absurd he.2 (by simp)
          · obtain ⟨ha, hb2⟩ := hp k P M hm2
            exact ⟨List.mem_cons_of_mem _ ha, List.mem_cons_of_mem _ hb2⟩
        · intro k vs hm
          rcases List.mem_cons.mp hm with he | hm2
          · rw [Prod.mk.injEq] at he
            obtain ⟨hk2, hv2⟩ := he
            subst hk2
            injection hv2 with hvs
            subst hvs
            exact List.mem_cons_self _ _
          · exact List.mem_cons_of_mem _ (hs k vs hm2)

/-- Witness for C8: the padded query tensor and its mask (under
`"query_mask"`) and the stacked video tensor all appear moved in the prepared
output. -/
theorem C8_witness :
    (("query_feat", MovedVal.mk "cuda" true (MovedTensor.pads [[[1]]])) ∈ outW ∧
      (pyReplace "query_feat" "feat" "mask",
        MovedVal.mk "cuda" true (MovedTensor.maskT [[1]])) ∈ outW) ∧
    ("video_feat", MovedVal.mk "cuda" true (MovedTensor.stk [FeatVal.v [1, 2]])) ∈ outW ∧
    pyReplace "query_feat" "feat" "mask" = "query_mask" := by
  have h := C8_prepare_moves "cuda" true bmW outW (by decide)
  exact ⟨h.1 "query_feat" [[[1]]] [[1]] (by decide),
    h.2.1 "video_feat" [FeatVal.v [1, 2]] (by decide), h.2.2⟩

/-- C9: in both item getters (training `__getitem__` and evaluation
`_get_item_context`), a disabled modality always yields the fixed 2-element
zero placeholder, independent of the store contents; an enabled modality
yields the optionally-normalized mean over the length axis of the first
`max_ctx_len` stored rows, a fixed-size vector whose length is the feature
dimension of the stored array (for any length-preserving row normalizer),
regardless of the stored sequence length. -/
theorem C9_modality_features (nu : Vec → Vec) (stT : RetrievalDataset.State)
    (stE : RetrievalEvalDataset.State) (i j : ℕ) (rawT : Record) (rawC : VideoEntry)
    (exT : ExampleG RetrievalDataset.Meta) (exC : ExampleG RetrievalEvalDataset.CtxMeta)
    (hT1 : stT.data.get? i = some rawT)
    (hT2 : RetrievalDataset.getitem nu stT i = some exT)
    (hE1 : stE.video_data.get? j = some rawC)
    (hE2 : RetrievalEvalDataset.get_item_context nu stE j = some exC) :
    (stT.use_video = false →
      exT.model_inputs.lookup "video_feat" = some (FeatVal.v (List.replicate 2 0))) ∧
    (stT.use_sub = false →
      exT.model_inputs.lookup "sub_feat" = some (FeatVal.v (List.replicate 2 0))) ∧
    (∀ arr, stT.use_video = true → stT.vid_feat_h5 rawT.vid_name = some arr →
      exT.model_inputs.lookup "video_feat"
          = some (FeatVal.v (pooledFeat nu stT.normalize_vfeat arr stT.max_ctx_len)) ∧
      (∀ D, (∀ r ∈ arr, r.length = D) → arr ≠ [] → 0 < stT.max_ctx_len →
        (∀ r, (nu r).length = r.length) →
        (pooledFeat nu stT.normalize_vfeat arr stT.max_ctx_len).length = D)) ∧
    (∀ arr, stT.use_sub = true → stT.sub_bert_h5 rawT.vid_name = some arr →
      exT.model_inputs.lookup "sub_feat"
          = some (FeatVal.v (pooledFeat nu stT.normalize_tfeat arr stT.max_ctx_len)) ∧
      (∀ D, (∀ r ∈ arr, r.length = D) → arr ≠ [] → 0 < stT.max_ctx_len →
        (∀ r, (nu r).length = r.length) →
        (pooledFeat nu stT.normalize_tfeat arr stT.max_ctx_len).length = D)) ∧
    (stE.use_video = false →
      exC.model_inputs.lookup "video_feat" = some (FeatVal.v (List.replicate 2 0))) ∧
    (stE.use_sub = false →
      exC.model_inputs.lookup "sub_feat" = some (FeatVal.v (List.replicate 2 0))) ∧
    (∀ arr, stE.use_video = true → stE.vid_feat_h5 rawC.vid_name = some arr →
      exC.model_inputs.lookup "video_feat"
          = some (FeatVal.v (pooledFeat nu stE.normalize_vfeat arr stE.max_ctx_len)) ∧
      (∀ D, (∀ r ∈ arr, r.length = D) → arr ≠ [] → 0 < stE.max_ctx_len →
        (∀ r, (nu r).length = r.length) →
        (pooledFeat nu stE.normalize_vfeat arr stE.max_ctx_len).length = D)) ∧
    (∀ arr, stE.use_sub = true → stE.sub_bert_h5 rawC.vid_name = some arr →
      exC.model_inputs.lookup "sub_feat"
          = some (FeatVal.v (pooledFeat nu stE.normalize_tfeat arr stE.max_ctx_len)) ∧
      (∀ D, (∀ r ∈ arr, r.length = D) → arr ≠ [] → 0 < stE.max_ctx_len →
        (∀ r, (nu r).length = r.length) →
        (pooledFeat nu stE.normalize_tfeat arr stE.max_ctx_len).length = D)) := by
  obtain ⟨qf, vf, sf, hqf, hvf, hsf, hmetaT, hmiT⟩ :=
    getitem_decomp nu stT i rawT exT hT1 hT2
  obtain ⟨vfE, sfE, hvfE, hsfE, hmetaE, hmiE⟩ :=
    get_item_context_decomp nu stE j rawC exC hE1 hE2
  have hlv : exT.model_inputs.lookup "video_feat" = some (FeatVal.v vf) := by
    rw [hmiT]; rfl
  have hls : exT.model_inputs.lookup "sub_feat" = some (FeatVal.v sf) := by
    rw [hmiT]; rfl
  have hlvE : exC.model_inputs.lookup "video_feat" = some (FeatVal.v vfE) := by
    rw [hmiE]; rfl
  have hlsE : exC.model_inputs.lookup "sub_feat" = some (FeatVal.v sfE) := by
    rw [hmiE]; rfl
  refine ⟨?_, ?_, ?_, ?_, ?_, ?_, ?_, ?_⟩
  · intro h
    rw [h] at hvf
    have h2 : List.replicate 2 (0 : ℚ) = vf :=
      Option.some.inj ((ctxFeature_disabled nu stT.normalize_vfeat stT.vid_feat_h5
        stT.max_ctx_len rawT.vid_name).symm.trans hvf)
    rw [hlv, ← h2]
  · intro h
    rw [h] at hsf
    have h2 : List.replicate 2 (0 : ℚ) = sf :=
      Option.some.inj ((ctxFeature_disabled nu stT.normalize_tfeat stT.sub_bert_h5
        stT.max_ctx_len rawT.vid_name).symm.trans hsf)
    rw [hls, ← h2]
  · intro arr htrue hstore
    rw [htrue] at hvf
    have h2 : pooledFeat nu stT.normalize_vfeat arr stT.max_ctx_len = vf :=
      Option.some.inj ((ctxFeature_enabled nu stT.normalize_vfeat stT.vid_feat_h5
        stT.max_ctx_len rawT.vid_name arr hstore).symm.trans hvf)
    exact ⟨by rw [hlv, ← h2], fun D hD hne hmcl hnu =>
      pooledFeat_length nu stT.normalize_vfeat arr stT.max_ctx_len D hD hne hmcl hnu⟩
  · intro arr htrue hstore
    rw [htrue] at hsf
    have h2 : pooledFeat nu stT.normalize_tfeat arr stT.max_ctx_len = sf :=
      Option.some.inj ((ctxFeature_enabled nu stT.normalize_tfeat stT.sub_bert_h5
        stT.max_ctx_len rawT.vid_name arr hstore).symm.trans hsf)
    exact ⟨by rw [hls, ← h2], fun D hD hne hmcl hnu =>
      pooledFeat_length nu stT.normalize_tfeat arr stT.max_ctx_len D hD hne hmcl hnu⟩
  · intro h
    rw [h] at hvfE
    have h2 : List.replicate 2 (0 : ℚ) = vfE :=
      Option.some.inj ((ctxFeature_disabled nu stE.normalize_vfeat stE.vid_feat_h5
        stE.max_ctx_len rawC.vid_name).symm.trans hvfE)
    rw [hlvE, ← h2]
  · intro h
    rw [h] at hsfE
    have h2 : List.replicate 2 (0 : ℚ) = sfE :=
      Option.some.inj ((ctxFeature_disabled nu stE.normalize_tfeat stE.sub_bert_h5
        stE.max_ctx_len rawC.vid_name).symm.trans hsfE)
    rw [hlsE, ← h2]
  · intro arr htrue hstore
    rw [htrue] at hvfE
    have h2 : pooledFeat nu stE.normalize_vfeat arr stE.max_ctx_len = vfE :=
      Option.some.inj ((ctxFeature_enabled nu stE.normalize_vfeat stE.vid_feat_h5
        stE.max_ctx_len rawC.vid_name arr hstore).symm.trans hvfE)
    exact ⟨by rw [hlvE, ← h2], fun D hD hne hmcl hnu =>
      pooledFeat_length nu stE.normalize_vfeat arr stE.max_ctx_len D hD hne hmcl hnu⟩
  · intro arr htrue hstore
    rw [htrue] at hsfE
    have h2 : pooledFeat nu stE.normalize_tfeat arr stE.max_ctx_len = sfE :=
      Option.some.inj ((ctxFeature_enabled nu stE.normalize_tfeat stE.sub_bert_h5
        stE.max_ctx_len rawC.vid_name arr hstore).symm.trans hsfE)
    exact ⟨by rw [hlsE, ← h2], fun D hD hne hmcl hnu =>
      pooledFeat_length nu stE.normalize_tfeat arr stE.max_ctx_len D hD hne hmcl hnu⟩

/-- Witness for C9: on `stC9` (video enabled, subtitles disabled) the training
example carries the mean-pooled 2-dimensional video feature and the `[0, 0]`
subtitle placeholder; on `stC9E` (video disabled, subtitles enabled) the
context example carries the `[0, 0]` video placeholder and the pooled subtitle
feature. -/
theorem C9_witness :
    exC9.model_inputs.lookup "sub_feat" = some (FeatVal.v (List.replicate 2 0)) ∧
    exC9.model_inputs.lookup "video_feat"
      = some (FeatVal.v (pooledFeat idNu false [[2, 4], [4, 6]] 2)) ∧
    (pooledFeat idNu false [[2, 4], [4, 6]] 2).length = 2 ∧
    exC9E.model_inputs.lookup "video_feat" = some (FeatVal.v (List.replicate 2 0)) ∧
    exC9E.model_inputs.lookup "sub_feat"
      = some (FeatVal.v (pooledFeat idNu false [[1, 1]] 2)) := by
  have hT2 : RetrievalDataset.getitem idNu stC9 0 = some exC9 := by
    simp [RetrievalDataset.getitem, RetrievalDataset.get_query_feat_by_desc_id, queryFeatCore,
          ctxFeature, stC9, qStore, vStore, sStore, recA, npMeanAxis0, addVec, idNu, exC9,
          l2NormalizeRows]
    norm_num
  have hE2 : RetrievalEvalDataset.get_item_context idNu stC9E 0 = some exC9E := by
    simp [RetrievalEvalDataset.get_item_context, ctxFeature, stC9E, stC1, qStore, vStore,
          sStore, npMeanAxis0, addVec, idNu, exC9E]
  have h := C9_modality_features idNu stC9 stC9E 0 0 recA
    { vid_name := "v1", duration := 5 } exC9 exC9E rfl hT2 rfl hE2
  refine ⟨h.2.1 rfl, (h.2.2.1 [[2, 4], [4, 6]] rfl rfl).1,
    (h.2.2.1 [[2, 4], [4, 6]] rfl rfl).2 2 (by decide) (by decide) (by decide)
      (fun r => rfl),
    h.2.2.2.2.1 rfl, (h.2.2.2.2.2.2.2 [[1, 1]] rfl rfl).1⟩

/-- C10: the batched feature mapping of `retrieval_collate` is built from the
keys of the first example only, keeping exactly those containing the substring
`"feat"`; any other model-input key (such as `st_ed_indices`) is silently
dropped. -/
theorem C10_collate_key_filter {μ : Type} (e0 : ExampleG μ) (rest : List (ExampleG μ))
    (metas : List μ) (bd : List (String × BatchedVal))
    (h : retrieval_collate (e0 :: rest) = some (metas, bd)) :
    bd.map Prod.fst = (e0.model_inputs.map Prod.fst).filter (fun k => strIn "feat" k) := by
  unfold retrieval_collate at h
  dsimp only at h
  cases hcf : collate_feats (e0 :: rest) (e0.model_inputs.map Prod.fst) with
  | none => rw [hcf] at h; exact absurd h (by simp)
  | some bd2 =>
    rw [hcf, Option.map_some'] at h
    have h2 := Option.some.inj h
    have hb : bd2 = bd := congrArg Prod.snd h2
    subst hb
    exact collate_feats_keys (e0 :: rest) _ bd2 hcf

/-- Witness for C10: on a batch whose first example has keys
`["query_feat", "video_feat", "st_ed_indices"]` (and whose second example has
an extra key), the batched keys are exactly `["query_feat", "video_feat"]`. -/
theorem C10_witness :
    bdK.map Prod.fst
      = (exK1.model_inputs.map Prod.fst).filter (fun k => strIn "feat" k) ∧
    bdK.map Prod.fst = ["query_feat", "video_feat"] := by
  have h := C10_collate_key_filter exK1 [exK2] [1, 2] bdK (by decide)
  exact ⟨h, by decide⟩

end TVRDataset

